import Mathlib

/-!
# Verification of the DevOpsAgent interactive session & command execution engine

Shallow embedding of `src/react_agent/SSHAgent.py` and
`src/react_agent/tools.py`, together with theorems settling the spec
claims about the output-buffer protocol, prompt auto-answering,
timeouts, the session registry and credential handling.
-/

set_option autoImplicit false

namespace DevOpsAgent

/-- Substring test, Python's `needle in hay` on strings (over `List Char`).
The empty needle is contained in everything. -/
def containsSeq (needle : List Char) : List Char → Bool
  | [] => needle.isEmpty
  | c :: rest => needle.isPrefixOf (c :: rest) || containsSeq needle rest

/-- Python's `needle in hay` for `String`. -/
def strContains (hay needle : String) : Bool :=
  containsSeq needle.data hay.data

/-- The ESC character `\x1B` that starts an ANSI escape sequence. -/
def escChar : Char := Char.ofNat 27

/-- First alternative of the source regex in `SSHAgent._strip_ansi`
(single-character escapes after ESC): code points `0x40`–`0x5A` or
`0x5C`–`0x5F`; note the bracket `0x5B` is excluded, so CSI sequences
fall through to the second alternative. -/
def isEscSingleChar (c : Char) : Bool :=
  decide ((0x40 ≤ c.toNat ∧ c.toNat ≤ 0x5A) ∨ (0x5C ≤ c.toNat ∧ c.toNat ≤ 0x5F))

/-- CSI parameter bytes, code points `0x30`–`0x3F`. -/
def isCsiParamChar (c : Char) : Bool :=
  decide (0x30 ≤ c.toNat ∧ c.toNat ≤ 0x3F)

/-- CSI intermediate bytes, code points `0x20`–`0x2F`. -/
def isCsiInterChar (c : Char) : Bool :=
  decide (0x20 ≤ c.toNat ∧ c.toNat ≤ 0x2F)

/-- CSI final bytes, code points `0x40`–`0x7E`. -/
def isCsiFinalChar (c : Char) : Bool :=
  decide (0x40 ≤ c.toNat ∧ c.toNat ≤ 0x7E)

/-- After the two characters ESC and bracket, try to consume parameter
bytes, then intermediate bytes, then one final byte; on success return
the remaining characters. -/
def afterCsi (l : List Char) : Option (List Char) :=
  match (l.dropWhile isCsiParamChar).dropWhile isCsiInterChar with
  | c :: r => if isCsiFinalChar c then some r else none
  | [] => none

theorem afterCsi_length {l r : List Char} (h : afterCsi l = some r) :
    r.length < l.length := by
  unfold afterCsi at h
  have h1 : ((l.dropWhile isCsiParamChar).dropWhile isCsiInterChar).length ≤ l.length :=
    le_trans (List.dropWhile_suffix _).length_le
      (List.dropWhile_suffix _).length_le
  cases hc : (l.dropWhile isCsiParamChar).dropWhile isCsiInterChar with
  | nil => rw [hc] at h; exact absurd h (by simp)
  | cons c r0 =>
    rw [hc] at h h1
    by_cases hf : isCsiFinalChar c
    · simp [hf] at h
      subst h
      simpa using Nat.lt_of_lt_of_le (Nat.lt_succ_self _) h1
    · simp [hf] at h

/-- `SSHAgent._strip_ansi` on a character list: remove every
non-overlapping match of the regex (ESC followed by either a
single-character escape or a full CSI sequence), scanning left to
right; an ESC that starts no match is kept verbatim. -/
def stripAnsiChars : List Char → List Char
  | [] => []
  | c :: rest =>
    if c = escChar then
      match rest with
      | [] => [c]
      | d :: r2 =>
        if isEscSingleChar d then stripAnsiChars r2
        else if d = '[' then
          match hcsi : afterCsi r2 with
          | some r3 => stripAnsiChars r3
          | none => c :: stripAnsiChars (d :: r2)
        else c :: stripAnsiChars (d :: r2)
    else c :: stripAnsiChars rest
termination_by l => l.length
decreasing_by
  all_goals simp
  all_goals try omega
  all_goals exact Nat.lt_succ_of_lt (Nat.lt_succ_of_lt (afterCsi_length hcsi))

namespace SSHAgent

/-- The pexpect child handle owned by one `SSHAgent`: the strings written
to the remote shell (each `sendline` payload with its newline) and whether
`close` has released it.  Writing to a closed handle raises. -/
structure Child where
  writes : List String
  closed : Bool
deriving DecidableEq

/-- One `SSHAgent` object: the spawned ssh command line, the child
handle, the mutex-guarded output buffer, and the reader-loop flag. -/
structure State where
  ssh_command : String
  child : Child
  output_buffer : String
  keep_reading : Bool
deriving DecidableEq

/-- `pexpect.spawn.sendline`: write `msg` plus a newline to the child;
raises `OSError` if the child has been closed. -/
def sendline (ch : Child) (msg : String) : Except String Child :=
  if ch.closed then Except.error "OSError: [Errno 9] Bad file descriptor"
  else Except.ok { ch with writes := ch.writes ++ [msg ++ "\n"] }

/-- `SSHAgent._strip_ansi`. -/
def strip_ansi (text : String) : String :=
  String.mk (stripAnsiChars text.data)

/-- One iteration of `SSHAgent._read_output`: poll the child
(`chunk = none` models a poll timeout or a swallowed exception, `some c`
models matched output).  On data, append it to `output_buffer` under the
lock.  The loop body never writes anything back to the child; the second
component records the (empty) list of strings it sends to the channel. -/
def read_output_step (s : State) (chunk : Option String) : State × List String :=
  match chunk with
  | some c => ({ s with output_buffer := s.output_buffer ++ c }, [])
  | none => (s, [])

/-- `SSHAgent.get_output`: atomically take the whole buffer and reset it
to the empty string; strip ANSI sequences when `stripFlag` (the source's
`strip_ansi` keyword, default `True`) is set. -/
def get_output (s : State) (stripFlag : Bool := true) : String × State :=
  let output := s.output_buffer
  ((if stripFlag then strip_ansi output else output), { s with output_buffer := "" })

/-- Source line 61 of `SSHAgent.send_command` assigns this string to a
local `env_vars` that is never used afterwards. -/
def send_command_env_vars : String :=
  "PAGER=cat SYSTEMD_PAGER= DEBIAN_FRONTEND=noninteractive "

/-- `SSHAgent.send_command`: `self.child.sendline(cmd)` (the `env_vars`
local is computed but never prepended), then a fixed sleep. -/
def send_command (s : State) (cmd : String) : Except String State :=
  match sendline s.child cmd with
  | Except.error e => Except.error e
  | Except.ok ch => Except.ok { s with child := ch }

/-- `SSHAgent.close`: set `keep_reading := false`, join the reader
(which exits once the flag is observed), then `sendline("exit")` and
release the child.  Returns the mutated state together with the raised
error, if any: on an already-closed child the `sendline` raises. -/
def close (s : State) : State × Option String :=
  let s1 : State := { s with keep_reading := false }
  if s1.child.closed then
    (s1, some "OSError: [Errno 9] Bad file descriptor")
  else
    ({ s1 with child := { writes := s1.child.writes ++ ["exit\n"], closed := true } }, none)

end SSHAgent

/-- Abstraction of the spawned ssh process's observable behaviour during
`SSHAgent.__init__`: whether it shows a password prompt, and whether a
shell prompt eventually appears (authentication succeeded).  An invalid
private-key path behaves as `authSucceeds = false`: ssh falls back to a
password prompt, which the key branch never answers, so the shell-prompt
`expect` times out. -/
structure RemoteEnv where
  promptsForPassword : Bool
  authSucceeds : Bool
deriving DecidableEq

namespace SSHAgent

/-- `SSHAgent.__init__`: build the ssh command (with `-i` when a key path
is given); when no key path is given, `expect` a password prompt and
`sendline(password)` — `sendline(None)` raises when `password` is `None`;
finally `expect` a shell prompt, raising `pexpect.TIMEOUT` when
authentication did not produce one.  On success the reader thread starts
(`keep_reading = true`) with an empty buffer. -/
def init (hostname : String) (port : Nat) (username : String)
    (password pkey_path : Option String) (env : RemoteEnv) :
    Except String State :=
  let base := "ssh " ++ username ++ "@" ++ hostname ++ " -p " ++ toString port
  let ssh_command :=
    match pkey_path with
    | some k => base ++ " -i " ++ k
    | none => base
  match pkey_path with
  | some _ =>
    if env.authSucceeds then
      Except.ok { ssh_command := ssh_command
                  child := { writes := [], closed := false }
                  output_buffer := ""
                  keep_reading := true }
    else Except.error "pexpect.exceptions.TIMEOUT: shell prompt not seen"
  | none =>
    if env.promptsForPassword then
      match password with
      | none => Except.error "TypeError: sendline called with None"
      | some p =>
        if env.authSucceeds then
          Except.ok { ssh_command := ssh_command
                      child := { writes := [p ++ "\n"], closed := false }
                      output_buffer := ""
                      keep_reading := true }
        else Except.error "pexpect.exceptions.TIMEOUT: shell prompt not seen"
    else Except.error "pexpect.exceptions.TIMEOUT: password prompt not seen"

end SSHAgent

namespace Tools

/-- One entry of the `responses` list of `tools.run_shell_command`:
a dict with `prompt` and `response` keys. -/
structure PromptResponse where
  prompt : String
  response : String
deriving DecidableEq

/-- The mutable locals of the interactive branch of
`tools.run_shell_command`: the full output log `all_output`, the
not-yet-answered prompt/response pairs `remaining_responses`, the
rolling since-last-match buffer `process_output`, plus the bytes written
to the process's stdin and whether stdin is closed. -/
structure RunState where
  all_output : List String
  remaining_responses : List PromptResponse
  process_output : String
  stdin_writes : List String
  stdin_closed : Bool
deriving DecidableEq

/-- What one answered prompt writes to the process's stdin:
`f"{response}\n"`. -/
def sendKey (r : String) : String := r ++ "\n"

/-- The log marker recorded for one answered prompt:
`f"[Sent: {response}]\n"`. -/
def sentMarker (r : String) : String := "[Sent: " ++ r ++ "]\n"

/-- The `for response_item in remaining_responses[:]` loop of
`tools.run_shell_command` (lines 136–156): iterate over a snapshot of the
remaining pairs; whenever a pair's prompt is a substring of the rolling
buffer, write the response plus newline to stdin (error if stdin is
closed), append the `[Sent: ...]` marker to the log, remove the pair from
the remaining list (Python `list.remove` raises `ValueError` when the
element is absent), and reset the rolling buffer to empty. -/
def respondLoop : List PromptResponse → RunState → Except String RunState
  | [], st => Except.ok st
  | item :: rest, st =>
    if strContains st.process_output item.prompt then
      if st.stdin_closed then
        Except.error "Error: Process stdin closed unexpectedly"
      else
        let st1 : RunState :=
          { st with
            stdin_writes := st.stdin_writes ++ [sendKey item.response]
            all_output := st.all_output ++ [sentMarker item.response] }
        if item ∈ st1.remaining_responses then
          respondLoop rest
            { st1 with
              remaining_responses := st1.remaining_responses.erase item
              process_output := "" }
        else Except.error "ValueError: list.remove(x): x not in list"
    else respondLoop rest st

/-- Handling of one successfully read chunk (lines 130–156): append it to
the rolling buffer and to the output log, then run the prompt loop over a
snapshot of the remaining pairs. -/
def processChunk (st : RunState) (chunk : String) : Except String RunState :=
  let st1 : RunState :=
    { st with
      process_output := st.process_output ++ chunk
      all_output := st.all_output ++ [chunk] }
  respondLoop st1.remaining_responses st1

/-- One iteration of the interactive `while` loop, as observed by the
runner: either the deadline check at the top of the loop fires, or the
bounded read times out (loop just continues), or a chunk arrives, or EOF
is reached, or the process exits. -/
inductive LoopEvent where
  | chunk (c : String)
  | readTimeout
  | deadlineExceeded
  | eofReached
  | procExit
deriving DecidableEq

/-- Result of the interactive loop: the in-loop deadline path kills the
process and returns a bare message; an early `return` aborts with an
error string; otherwise the loop finishes with its final state (the
function then drains remaining output and joins the log). -/
inductive RunOutcome where
  | timedOut (killed : Bool) (msg : String)
  | aborted (msg : String)
  | finished (st : RunState)
deriving DecidableEq

/-- `f"Interactive command timed out after {timeout} seconds"`. -/
def timeoutMsg (timeout : Nat) : String :=
  "Interactive command timed out after " ++ toString timeout ++ " seconds"

/-- The interactive `while` loop of `tools.run_shell_command`
(lines 113–164), driven by the list of observed iteration events.  On
`deadlineExceeded` the process is killed (`killed = true`) and the bare
timeout message is returned — the captured output in `all_output` is
discarded on this path. -/
def interactiveLoop (timeout : Nat) : List LoopEvent → RunState → RunOutcome
  | [], st => RunOutcome.finished st
  | e :: rest, st =>
    match e with
    | LoopEvent.deadlineExceeded => RunOutcome.timedOut true (timeoutMsg timeout)
    | LoopEvent.readTimeout => interactiveLoop timeout rest st
    | LoopEvent.eofReached => RunOutcome.finished st
    | LoopEvent.procExit => RunOutcome.finished st
    | LoopEvent.chunk c =>
      match processChunk st c with
      | Except.ok st1 => interactiveLoop timeout rest st1
      | Except.error m => RunOutcome.aborted m

/-- The interactive branch's initial locals: empty log, all supplied
pairs remaining, empty rolling buffer, open stdin. -/
def initRunState (responses : List PromptResponse) : RunState :=
  { all_output := []
    remaining_responses := responses
    process_output := ""
    stdin_writes := []
    stdin_closed := false }

/-- `true` when the event is not a chunk equal to the string `m`
(used to assume that no read chunk coincides with a log marker). -/
def chunkOk (m : String) : LoopEvent → Bool
  | LoopEvent.chunk c => decide (¬ c = m)
  | _ => true

/-- `true` for events that keep the interactive loop running:
a read chunk or a swallowed read timeout. -/
def keepsLooping : LoopEvent → Bool
  | LoopEvent.chunk _ => true
  | LoopEvent.readTimeout => true
  | _ => false

/-- The process-wide state of the tool layer: the `_ssh_connections`
registry mapping connection ids to live `SSHAgent` objects.  Object
identity is modelled by a heap (`heap`, indexed by handle) so that a
replaced session can still be inspected after it leaves the registry. -/
structure World where
  heap : List SSHAgent.State
  connections : List (String × Nat)
deriving DecidableEq

/-- Dictionary lookup `_ssh_connections[id]` (as a handle into the heap). -/
def lookupConn (w : World) (id : String) : Option Nat :=
  (w.connections.find? (fun p => decide (p.1 = id))).map (fun p => p.2)

/-- Dictionary assignment `_ssh_connections[id] = h`. -/
def setConn (l : List (String × Nat)) (id : String) (h : Nat) :
    List (String × Nat) :=
  (id, h) :: l.filter (fun p => decide (¬ p.1 = id))

/-- Dictionary deletion `del _ssh_connections[id]`. -/
def delConn (l : List (String × Nat)) (id : String) : List (String × Nat) :=
  l.filter (fun p => decide (¬ p.1 = id))

/-- Read the session object behind a handle. -/
def heapGet (w : World) (h : Nat) : Option SSHAgent.State :=
  w.heap[h]?

/-- In-place mutation of the session object behind a handle. -/
def heapSet (w : World) (h : Nat) (s : SSHAgent.State) : World :=
  { w with heap := w.heap.set h s }

/-- `tools.ssh_connect` converts empty-string credentials to `None`. -/
def toCred (s : String) : Option String :=
  if s = "" then none else some s

/-- The creation half of `tools.ssh_connect`: construct the `SSHAgent`
and, on success, store it in the registry under `connection_id`; on
failure return the caught exception as an error string, leaving the
registry unchanged. -/
def ssh_connect_fresh (w : World) (hostname : String) (port : Nat)
    (username password key_path connection_id : String) (env : RemoteEnv) :
    World × String :=
  match SSHAgent.init hostname port username (toCred password) (toCred key_path) env with
  | Except.error e => (w, "Error establishing SSH connection: " ++ e)
  | Except.ok s =>
    ({ heap := w.heap ++ [s]
       connections := setConn w.connections connection_id w.heap.length },
     "SSH connection established to " ++ hostname ++ ":" ++ toString port
       ++ " as " ++ username ++ " (ID: " ++ connection_id ++ ")")

/-- `tools.ssh_connect` (lines 292–340): when the id already maps to a
session, close it first (an exception there is caught and reported, with
the registry entry left in place) and delete the entry, then create and
register the new session.  The `heapGet = none` case cannot arise for a
registry that only holds valid handles. -/
def ssh_connect (w : World) (hostname : String) (port : Nat)
    (username password key_path connection_id : String) (env : RemoteEnv) :
    World × String :=
  match lookupConn w connection_id with
  | some h =>
    match heapGet w h with
    | some old =>
      let closeResult := SSHAgent.close old
      let w1 := heapSet w h closeResult.1
      match closeResult.2 with
      | some e => (w1, "Error establishing SSH connection: " ++ e)
      | none =>
        ssh_connect_fresh
          { w1 with connections := delConn w1.connections connection_id }
          hostname port username password key_path connection_id env
    | none =>
      ssh_connect_fresh
        { w with connections := delConn w.connections connection_id }
        hostname port username password key_path connection_id env
  | none =>
    ssh_connect_fresh w hostname port username password key_path connection_id env

/-- `tools.ssh_execute`: look up the session, `send_command` (an `OSError`
from a closed channel is caught and reported), wait `wait_time` seconds —
during which the background reader appends `arrived` to the buffer — and
return `get_output()`. -/
def ssh_execute (w : World) (command connection_id : String)
    (arrived : String) : World × String :=
  match lookupConn w connection_id with
  | none =>
    (w, "Error: No SSH connection found with ID '" ++ connection_id
      ++ "'. Use ssh_connect first.")
  | some h =>
    match heapGet w h with
    | none => (w, "Error executing SSH command: internal error")
    | some s =>
      match SSHAgent.send_command s command with
      | Except.error e => (w, "Error executing SSH command: " ++ e)
      | Except.ok s1 =>
        let s2 := (SSHAgent.read_output_step s1 (some arrived)).1
        let outAndState := SSHAgent.get_output s2
        (heapSet w h outAndState.2, outAndState.1)

/-- `tools.ssh_check_output` (lines 519–548): look up the session and
return `get_output()` (which always drains and clears the buffer); the
`clear_buffer` argument is never consulted. -/
def ssh_check_output (w : World) (connection_id : String)
    (clear_buffer : Bool) : World × String :=
  match lookupConn w connection_id with
  | none =>
    (w, "Error: No SSH connection found with ID '" ++ connection_id
      ++ "'. Use ssh_connect first.")
  | some h =>
    match heapGet w h with
    | none => (w, "Error checking SSH output: internal error")
    | some s =>
      let outAndState := SSHAgent.get_output s
      (heapSet w h outAndState.2,
       if outAndState.1 = "" then "No new output available." else outAndState.1)

end Tools

/-- Python `str.lower`, character by character. -/
def lowerStr (s : String) : String :=
  String.mk (s.data.map Char.toLower)

/-- Modelled from the spec (for comparison with the source's
`SSHAgent._read_output`): the heuristic auto-continue trigger — the
just-read chunk's lowercased text contains one of the continuation words
"return" or "enter". -/
def specContinuationTrigger (chunk : String) : Bool :=
  strContains (lowerStr chunk) "return" || strContains (lowerStr chunk) "enter"

/-! ## Concrete demonstration values used by witnesses and counterexamples -/

/-- A freshly connected, still-open session with an empty buffer. -/
def liveSession : SSHAgent.State :=
  { ssh_command := "ssh user@host -p 22"
    child := { writes := [], closed := false }
    output_buffer := ""
    keep_reading := true }

/-- A one-session world: `liveSession` with the text "hello" buffered,
registered under id "default". -/
def demoWorld : Tools.World :=
  { heap := [{ liveSession with output_buffer := "hello" }]
    connections := [("default", 0)] }

/-- The demonstration prompt/response pair. -/
def c2pair : Tools.PromptResponse := { prompt := "Password:", response := "secret" }

/-- A demonstration event list: the prompt arrives split across two
chunks, and its text later reappears in already-logged output. -/
def c2events : List Tools.LoopEvent :=
  [Tools.LoopEvent.chunk "Pass", Tools.LoopEvent.chunk "word: ",
   Tools.LoopEvent.chunk "Password: again"]

/-- The final loop state of the demonstration run: the prompt was
answered once when it first appeared; its later reappearance (after the
rolling buffer was reset) is not re-answered because the pair has left
the remaining set. -/
def c2final : Tools.RunState :=
  { all_output := ["Pass", "word: ", "[Sent: secret]\n", "Password: again"]
    remaining_responses := []
    process_output := "Password: again"
    stdin_writes := ["secret\n"]
    stdin_closed := false }

/-- An empty registry world. -/
def c7w0 : Tools.World := { heap := [], connections := [] }

/-- A remote that authenticates a key without password prompt. -/
def c7env : RemoteEnv := { promptsForPassword := false, authSucceeds := true }

/-- The session created by key `/k1`. -/
def c7s1 : SSHAgent.State :=
  { ssh_command := "ssh " ++ "user" ++ "@" ++ "host" ++ " -p " ++ toString 22
      ++ " -i " ++ "/k1"
    child := { writes := [], closed := false }
    output_buffer := ""
    keep_reading := true }

/-- The session created by key `/k2`. -/
def c7s2 : SSHAgent.State :=
  { ssh_command := "ssh " ++ "user" ++ "@" ++ "host" ++ " -p " ++ toString 22
      ++ " -i " ++ "/k2"
    child := { writes := [], closed := false }
    output_buffer := ""
    keep_reading := true }

/-- World after the first demonstration connect. -/
def c7w1 : Tools.World :=
  (Tools.ssh_connect c7w0 "host" 22 "user" "" "/k1" "id1" c7env).1

/-- World after the second demonstration connect with the same id. -/
def c7w2 : Tools.World :=
  (Tools.ssh_connect c7w1 "host" 22 "user" "" "/k2" "id1" c7env).1

/-! ## Lemmas about the ANSI stripper -/

theorem stripAnsiChars_nil : stripAnsiChars [] = [] := by
  rw [stripAnsiChars.eq_def]

theorem stripAnsiChars_cons_of_ne {c : Char} {rest : List Char} (h : c ≠ escChar) :
    stripAnsiChars (c :: rest) = c :: stripAnsiChars rest := by
  rw [stripAnsiChars.eq_def]
  simp [h]

theorem stripAnsiChars_append_of_noEsc {l v : List Char}
    (h : ∀ c ∈ l, c ≠ escChar) :
    stripAnsiChars (l ++ v) = l ++ stripAnsiChars v := by
  induction l with
  | nil => simp
  | cons c t ih =>
    have hc : c ≠ escChar := h c (by simp)
    have ht : ∀ x ∈ t, x ≠ escChar := fun x hx => h x (by simp [hx])
    simp only [List.cons_append, stripAnsiChars_cons_of_ne hc, ih ht]

theorem stripAnsiChars_of_noEsc {l : List Char} (h : ∀ c ∈ l, c ≠ escChar) :
    stripAnsiChars l = l := by
  have h2 := @stripAnsiChars_append_of_noEsc l [] h
  simpa [stripAnsiChars_nil] using h2

theorem dropWhile_append_of_all {p : Char → Bool} {l r : List Char}
    (hl : ∀ c ∈ l, p c = true) :
    (l ++ r).dropWhile p = r.dropWhile p := by
  induction l with
  | nil => simp
  | cons c t ih =>
    have hc : p c = true := hl c (by simp)
    have ht : ∀ x ∈ t, p x = true := fun x hx => hl x (by simp [hx])
    simp [List.dropWhile_cons, hc, ih ht]

theorem afterCsi_of_wellFormed {params inters v : List Char} {fin : Char}
    (hp : ∀ c ∈ params, isCsiParamChar c = true)
    (hi : ∀ c ∈ inters, isCsiInterChar c = true)
    (hf : isCsiFinalChar fin = true) :
    afterCsi (params ++ (inters ++ fin :: v)) = some v := by
  have hfin_param : isCsiParamChar fin = false := by
    simp only [isCsiFinalChar, decide_eq_true_eq] at hf
    simp only [isCsiParamChar, decide_eq_false_iff_not]
    omega
  have hfin_inter : isCsiInterChar fin = false := by
    simp only [isCsiFinalChar, decide_eq_true_eq] at hf
    simp only [isCsiInterChar, decide_eq_false_iff_not]
    omega
  have h1 : (params ++ (inters ++ fin :: v)).dropWhile isCsiParamChar
      = inters ++ fin :: v := by
    rw [dropWhile_append_of_all hp]
    cases inters with
    | nil => simp [List.dropWhile_cons, hfin_param]
    | cons i t =>
      have hip : isCsiParamChar i = false := by
        have := hi i (by simp)
        simp only [isCsiInterChar, decide_eq_true_eq] at this
        simp only [isCsiParamChar, decide_eq_false_iff_not]
        omega
      simp [List.dropWhile_cons, hip]
  have h2 : (inters ++ fin :: v).dropWhile isCsiInterChar = fin :: v := by
    rw [dropWhile_append_of_all hi]
    simp [List.dropWhile_cons, hfin_inter]
  unfold afterCsi
  rw [h1, h2]
  simp [hf]

theorem stripAnsiChars_csi {params inters v : List Char} {fin : Char}
    (hp : ∀ c ∈ params, isCsiParamChar c = true)
    (hi : ∀ c ∈ inters, isCsiInterChar c = true)
    (hf : isCsiFinalChar fin = true) :
    stripAnsiChars (escChar :: '[' :: (params ++ (inters ++ fin :: v)))
      = stripAnsiChars v := by
  have hbr : isEscSingleChar '[' = false := by decide
  rw [stripAnsiChars]
  simp only [if_pos rfl, hbr, Bool.false_eq_true, if_false, if_true,
    eq_self_iff_true]
  split
  · next r3 heq =>
    rw [afterCsi_of_wellFormed hp hi hf] at heq
    cases heq
    rfl
  · next heq =>
    rw [afterCsi_of_wellFormed hp hi hf] at heq
    cases heq

/-- A successful `SSHAgent.init` yields an open, reading session with an
empty buffer. -/
theorem init_ok_open {hostname : String} {port : Nat} {username : String}
    {password pkey_path : Option String} {env : RemoteEnv}
    {s : SSHAgent.State}
    (h : SSHAgent.init hostname port username password pkey_path env
      = Except.ok s) :
    s.child.closed = false ∧ s.output_buffer = "" ∧ s.keep_reading = true := by
  unfold SSHAgent.init at h
  cases pkey_path with
  | some k =>
    by_cases ha : env.authSucceeds = true
    · simp [ha] at h
      subst h
      exact ⟨rfl, rfl, rfl⟩
    · simp [ha] at h
  | none =>
    by_cases hp : env.promptsForPassword = true
    · cases password with
      | none => simp [hp] at h
      | some p =>
        by_cases ha : env.authSucceeds = true
        · simp [hp, ha] at h
          subst h
          exact ⟨rfl, rfl, rfl⟩
        · simp [hp, ha] at h
    · simp [hp] at h

/-- Setting the position after the original part of a concatenation. -/
theorem set_concat_length {α : Type} (l : List α) (a b : α) :
    (l ++ [a]).set l.length b = l ++ [b] := by
  rw [List.set_append_right _ _ (le_refl _)]
  simp

/-- Counting a singleton list: the matching case. -/
theorem count_singleton_eq {α : Type} [DecidableEq α] (a : α) :
    List.count a [a] = 1 := by
  simp

/-- Counting a singleton list: the non-matching case. -/
theorem count_singleton_ne {α : Type} [DecidableEq α] {a b : α}
    (h : ¬ a = b) : List.count a [b] = 0 := by
  simp [List.count_cons, h]

/-- Appending a newline is injective. -/
theorem sendKey_inj {r1 r2 : String} (h : Tools.sendKey r1 = Tools.sendKey r2) :
    r1 = r2 := by
  unfold Tools.sendKey at h
  have hd : r1.data ++ "\n".data = r2.data ++ "\n".data := by
    rw [← String.data_append, ← String.data_append, h]
  exact String.ext (List.append_inj' hd rfl).1

/-- The `[Sent: ...]` marker determines the response text. -/
theorem sentMarker_inj {r1 r2 : String}
    (h : Tools.sentMarker r1 = Tools.sentMarker r2) : r1 = r2 := by
  unfold Tools.sentMarker at h
  have hd : ("[Sent: " ++ r1).data ++ "]\n".data
      = ("[Sent: " ++ r2).data ++ "]\n".data := by
    rw [← String.data_append, ← String.data_append, h]
  have h1 := (List.append_inj' hd rfl).1
  rw [String.data_append, String.data_append] at h1
  exact String.ext ((List.append_right_inj _).mp h1)

/-- Structural facts about one prompt-loop pass: stdin flag unchanged,
remaining pairs only shrink, stdin writes only grow, and the rolling
buffer is either untouched (no send, writes unchanged) or ends empty. -/
theorem respondLoop_shape :
    ∀ (S : List Tools.PromptResponse) (st st' : Tools.RunState),
      Tools.respondLoop S st = Except.ok st' →
      st'.stdin_closed = st.stdin_closed
      ∧ (∀ x ∈ st'.remaining_responses, x ∈ st.remaining_responses)
      ∧ (∃ t, st'.stdin_writes = st.stdin_writes ++ t)
      ∧ ((st'.process_output = st.process_output
            ∧ st'.stdin_writes = st.stdin_writes)
          ∨ st'.process_output = "") := by
  intro S
  induction S with
  | nil =>
    intro st st' h
    simp only [Tools.respondLoop] at h
    cases h
    exact ⟨rfl, fun x hx => hx, ⟨[], by simp⟩, Or.inl ⟨rfl, rfl⟩⟩
  | cons item rest ih =>
    intro st st' h
    simp only [Tools.respondLoop] at h
    by_cases hm : strContains st.process_output item.prompt = true
    · rw [if_pos hm] at h
      by_cases hc : st.stdin_closed = true
      · rw [if_pos hc] at h
        cases h
      · rw [if_neg hc] at h
        by_cases hmem : item ∈ st.remaining_responses
        · rw [if_pos hmem] at h
          obtain ⟨hcl, hmem', ⟨t, hw⟩, hpo⟩ := ih _ _ h
          refine ⟨hcl, ?_, ⟨Tools.sendKey item.response :: t, ?_⟩, ?_⟩
          · intro x hx
            exact List.mem_of_mem_erase (hmem' x hx)
          · rw [hw]
            simp
          · cases hpo with
            | inl hp => exact Or.inr hp.1
            | inr hp => exact Or.inr hp
        · rw [if_neg hmem] at h
          cases h
    · rw [if_neg hm] at h
      exact ih _ _ h

/-- Counting invariant of one prompt-loop pass, for a target pair `it`
whose response no other remaining pair shares: the number of remaining
copies of `it` plus the number of stdin writes of its response is
unchanged, and the `[Sent: ...]` marker count moves in step with the
write count. -/
theorem respondLoop_count (it : Tools.PromptResponse) :
    ∀ (S : List Tools.PromptResponse) (st st' : Tools.RunState),
      Tools.respondLoop S st = Except.ok st' →
      (∀ x ∈ st.remaining_responses, x.response = it.response → x = it) →
      st'.remaining_responses.count it
          + st'.stdin_writes.count (Tools.sendKey it.response)
        = st.remaining_responses.count it
          + st.stdin_writes.count (Tools.sendKey it.response)
      ∧ st'.all_output.count (Tools.sentMarker it.response)
          + st.stdin_writes.count (Tools.sendKey it.response)
        = st.all_output.count (Tools.sentMarker it.response)
          + st'.stdin_writes.count (Tools.sendKey it.response) := by
  intro S
  induction S with
  | nil =>
    intro st st' h _
    simp only [Tools.respondLoop] at h
    cases h
    exact ⟨rfl, rfl⟩
  | cons item rest ih =>
    intro st st' h huniq
    simp only [Tools.respondLoop] at h
    by_cases hm : strContains st.process_output item.prompt = true
    · rw [if_pos hm] at h
      by_cases hc : st.stdin_closed = true
      · rw [if_pos hc] at h
        cases h
      · rw [if_neg hc] at h
        by_cases hmem : item ∈ st.remaining_responses
        · rw [if_pos hmem] at h
          have huniq2 : ∀ x ∈ st.remaining_responses.erase item,
              x.response = it.response → x = it :=
            fun x hx => huniq x (List.mem_of_mem_erase hx)
          have ih1 : st'.remaining_responses.count it
                + st'.stdin_writes.count (Tools.sendKey it.response)
              = (st.remaining_responses.erase item).count it
                + (st.stdin_writes ++ [Tools.sendKey item.response]).count
                    (Tools.sendKey it.response) :=
            (ih _ _ h huniq2).1
          have ih2 : st'.all_output.count (Tools.sentMarker it.response)
                + (st.stdin_writes ++ [Tools.sendKey item.response]).count
                    (Tools.sendKey it.response)
              = (st.all_output ++ [Tools.sentMarker item.response]).count
                    (Tools.sentMarker it.response)
                + st'.stdin_writes.count (Tools.sendKey it.response) :=
            (ih _ _ h huniq2).2
          by_cases hit : item = it
          · subst hit
            have hpos : 0 < st.remaining_responses.count item :=
              List.count_pos_iff.mpr hmem
            simp only [List.count_append, List.count_erase_self,
              count_singleton_eq] at ih1 ih2
            constructor
            · omega
            · omega
          · have hr : item.response ≠ it.response := fun he =>
              hit (huniq item hmem he)
            have hks : ¬ Tools.sendKey it.response = Tools.sendKey item.response :=
              fun he => hr (sendKey_inj he).symm
            have hms : ¬ Tools.sentMarker it.response
                = Tools.sentMarker item.response :=
              fun he => hr (sentMarker_inj he).symm
            have hne : it ≠ item := fun he => hit he.symm
            simp only [List.count_append, List.count_erase_of_ne hne,
              count_singleton_ne hks, count_singleton_ne hms] at ih1 ih2
            constructor
            · omega
            · omega
        · rw [if_neg hmem] at h
          cases h
    · rw [if_neg hm] at h
      exact ih _ _ h huniq

/-- With stdin open and the snapshot a sub-multiset of the remaining
pairs (as it always is: the snapshot is a copy of the remaining list),
the prompt loop never raises. -/
theorem respondLoop_ok :
    ∀ (S : List Tools.PromptResponse) (st : Tools.RunState),
      st.stdin_closed = false →
      (∀ x : Tools.PromptResponse, S.count x ≤ st.remaining_responses.count x) →
      ∃ st', Tools.respondLoop S st = Except.ok st' := by
  intro S
  induction S with
  | nil =>
    intro st _ _
    exact ⟨st, rfl⟩
  | cons item rest ih =>
    intro st hstdin hcnt
    simp only [Tools.respondLoop]
    by_cases hm : strContains st.process_output item.prompt = true
    · rw [if_pos hm, if_neg (by simp [hstdin])]
      have hmem : item ∈ st.remaining_responses := by
        have h1 := hcnt item
        rw [List.count_cons_self] at h1
        exact List.count_pos_iff.mp (by omega)
      rw [if_pos hmem]
      apply ih
      · exact hstdin
      · intro x
        have h1 := hcnt x
        by_cases hx : x = item
        · subst hx
          rw [List.count_cons_self] at h1
          rw [List.count_erase_self]
          omega
        · rw [List.count_cons_of_ne hx] at h1
          rw [List.count_erase_of_ne hx]
          exact h1
    · rw [if_neg hm]
      apply ih st hstdin
      intro x
      have h1 := hcnt x
      rw [List.count_cons] at h1
      omega

/-- With stdin open, handling a chunk never raises. -/
theorem processChunk_ok (st : Tools.RunState) (c : String)
    (h : st.stdin_closed = false) :
    ∃ st', Tools.processChunk st c = Except.ok st' := by
  unfold Tools.processChunk
  exact respondLoop_ok _ _ h (fun x => le_refl _)

/-- Structural facts about handling one chunk: stdin flag unchanged,
remaining pairs only shrink, and if any response was sent the rolling
buffer ends empty. -/
theorem processChunk_shape (st st' : Tools.RunState) (c : String)
    (h : Tools.processChunk st c = Except.ok st') :
    st'.stdin_closed = st.stdin_closed
    ∧ (∀ x ∈ st'.remaining_responses, x ∈ st.remaining_responses)
    ∧ (st'.stdin_writes ≠ st.stdin_writes → st'.process_output = "") := by
  unfold Tools.processChunk at h
  obtain ⟨hcl, hmem, _, hpo⟩ := respondLoop_shape _ _ _ h
  refine ⟨hcl, hmem, ?_⟩
  intro hw
  cases hpo with
  | inl hp => exact absurd hp.2 hw
  | inr hp => exact hp

/-- Counting invariant of handling one chunk, provided the chunk is not
itself the `[Sent: ...]` marker of the target pair. -/
theorem processChunk_count (it : Tools.PromptResponse)
    (st st' : Tools.RunState) (c : String)
    (h : Tools.processChunk st c = Except.ok st')
    (huniq : ∀ x ∈ st.remaining_responses, x.response = it.response → x = it)
    (hc : ¬ c = Tools.sentMarker it.response) :
    st'.remaining_responses.count it
        + st'.stdin_writes.count (Tools.sendKey it.response)
      = st.remaining_responses.count it
        + st.stdin_writes.count (Tools.sendKey it.response)
    ∧ st'.all_output.count (Tools.sentMarker it.response)
        + st.stdin_writes.count (Tools.sendKey it.response)
      = st.all_output.count (Tools.sentMarker it.response)
        + st'.stdin_writes.count (Tools.sendKey it.response) := by
  unfold Tools.processChunk at h
  have e1 : st'.remaining_responses.count it
        + st'.stdin_writes.count (Tools.sendKey it.response)
      = st.remaining_responses.count it
        + st.stdin_writes.count (Tools.sendKey it.response) :=
    (respondLoop_count it _ _ _ h huniq).1
  have e2 : st'.all_output.count (Tools.sentMarker it.response)
        + st.stdin_writes.count (Tools.sendKey it.response)
      = (st.all_output ++ [c]).count (Tools.sentMarker it.response)
        + st'.stdin_writes.count (Tools.sendKey it.response) :=
    (respondLoop_count it _ _ _ h huniq).2
  have hfix : (st.all_output ++ [c]).count (Tools.sentMarker it.response)
      = st.all_output.count (Tools.sentMarker it.response) := by
    rw [List.count_append, count_singleton_ne (fun he => hc he.symm)]
    omega
  rw [hfix] at e2
  exact ⟨e1, e2⟩

/-- Counting invariant over a whole interactive run that finishes
normally, for a target pair `it` whose response is unique among the
initially supplied pairs `R0` and whose marker never arrives as a read
chunk. -/
theorem interactiveLoop_finished_count (timeout : Nat)
    (it : Tools.PromptResponse) (R0 : List Tools.PromptResponse)
    (huniq : ∀ x ∈ R0, x.response = it.response → x = it) :
    ∀ (events : List Tools.LoopEvent) (st st' : Tools.RunState),
      Tools.interactiveLoop timeout events st = Tools.RunOutcome.finished st' →
      st.stdin_closed = false →
      (∀ x ∈ st.remaining_responses, x ∈ R0) →
      (∀ e ∈ events, Tools.chunkOk (Tools.sentMarker it.response) e = true) →
      st'.remaining_responses.count it
          + st'.stdin_writes.count (Tools.sendKey it.response)
        = st.remaining_responses.count it
          + st.stdin_writes.count (Tools.sendKey it.response)
      ∧ st'.all_output.count (Tools.sentMarker it.response)
          + st.stdin_writes.count (Tools.sendKey it.response)
        = st.all_output.count (Tools.sentMarker it.response)
          + st'.stdin_writes.count (Tools.sendKey it.response) := by
  intro events
  induction events with
  | nil =>
    intro st st' h _ _ _
    simp only [Tools.interactiveLoop] at h
    cases h
    exact ⟨rfl, rfl⟩
  | cons e rest ih =>
    intro st st' h hstdin hmem hok
    cases e with
    | deadlineExceeded =>
      simp only [Tools.interactiveLoop] at h
      cases h
    | readTimeout =>
      simp only [Tools.interactiveLoop] at h
      exact ih st st' h hstdin hmem (fun x hx => hok x (by simp [hx]))
    | eofReached =>
      simp only [Tools.interactiveLoop] at h
      cases h
      exact ⟨rfl, rfl⟩
    | procExit =>
      simp only [Tools.interactiveLoop] at h
      cases h
      exact ⟨rfl, rfl⟩
    | chunk c =>
      simp only [Tools.interactiveLoop] at h
      cases hpc : Tools.processChunk st c with
      | error m =>
        rw [hpc] at h
        cases h
      | ok st1 =>
        rw [hpc] at h
        have hcm : ¬ c = Tools.sentMarker it.response := by
          have hh := hok (Tools.LoopEvent.chunk c) (by simp)
          simpa [Tools.chunkOk] using hh
        obtain ⟨d1, d2⟩ := processChunk_count it st st1 c hpc
          (fun x hx hr => huniq x (hmem x hx) hr) hcm
        have hsh := processChunk_shape st st1 c hpc
        obtain ⟨i1, i2⟩ := ih st1 st' h (by rw [hsh.1]; exact hstdin)
          (fun x hx => hmem x (hsh.2.1 x hx))
          (fun x hx => hok x (by simp [hx]))
        constructor
        · omega
        · omega

/-- If the deadline check fires while the loop is still reading (all
earlier iterations were chunks or swallowed read timeouts, stdin open),
the interactive loop kills the process and returns exactly the bare
timeout message. -/
theorem interactiveLoop_deadline_bare (timeout : Nat) :
    ∀ (pre rest : List Tools.LoopEvent) (st : Tools.RunState),
      st.stdin_closed = false →
      (∀ e ∈ pre, Tools.keepsLooping e = true) →
      Tools.interactiveLoop timeout
          (pre ++ Tools.LoopEvent.deadlineExceeded :: rest) st
        = Tools.RunOutcome.timedOut true (Tools.timeoutMsg timeout) := by
  intro pre
  induction pre with
  | nil =>
    intro rest st _ _
    simp [Tools.interactiveLoop]
  | cons e t ih =>
    intro rest st hstdin hpre
    cases e with
    | chunk c =>
      obtain ⟨st1, hst1⟩ := processChunk_ok st c hstdin
      have hsh := processChunk_shape st st1 c hst1
      simp only [List.cons_append, Tools.interactiveLoop, hst1]
      exact ih rest st1 (by rw [hsh.1]; exact hstdin)
        (fun x hx => hpre x (by simp [hx]))
    | readTimeout =>
      simp only [List.cons_append, Tools.interactiveLoop]
      exact ih rest st hstdin (fun x hx => hpre x (by simp [hx]))
    | deadlineExceeded =>
      exact absurd (hpre _ (List.mem_cons_self _ _)) (by simp [Tools.keepsLooping])
    | eofReached =>
      exact absurd (hpre _ (List.mem_cons_self _ _)) (by simp [Tools.keepsLooping])
    | procExit =>
      exact absurd (hpre _ (List.mem_cons_self _ _)) (by simp [Tools.keepsLooping])

/-! ## Claim theorems -/

/-- **C1.** For every pair of strings `a` and `b`, appending `a` then `b`
(two reader iterations) to a session's drained output buffer followed by
one drain (`get_output`, raw text) returns the concatenation `a ++ b`,
and an immediately subsequent drain returns the empty string: no text is
delivered to two different drains and no appended text is lost. -/
theorem append_append_drain_exact (s : SSHAgent.State) (a b : String)
    (h : s.output_buffer = "") :
    (SSHAgent.get_output
        ((SSHAgent.read_output_step
            ((SSHAgent.read_output_step s (some a)).1) (some b)).1) false).1
      = a ++ b
    ∧ (SSHAgent.get_output
        ((SSHAgent.get_output
            ((SSHAgent.read_output_step
                ((SSHAgent.read_output_step s (some a)).1) (some b)).1) false).2)
        false).1
      = "" := by
  simp [SSHAgent.read_output_step, SSHAgent.get_output, h]

/-- Witness for C1 at `a = "foo"`, `b = "bar"`. -/
theorem append_append_drain_exact_witness :
    (SSHAgent.get_output
        ((SSHAgent.read_output_step
            ((SSHAgent.read_output_step liveSession (some "foo")).1)
            (some "bar")).1) false).1
      = "foo" ++ "bar"
    ∧ (SSHAgent.get_output
        ((SSHAgent.get_output
            ((SSHAgent.read_output_step
                ((SSHAgent.read_output_step liveSession (some "foo")).1)
                (some "bar")).1) false).2)
        false).1
      = "" :=
  append_append_drain_exact liveSession "foo" "bar" (by rfl)

/-- **C4** (code bug witness).  `SSHAgent.send_command` writes the bare
command followed by a newline to the channel: for `cmd = "ls"` on a fresh
session the single write is `"ls\n"`, which differs from the
environment-prefixed line the spec requires and does not contain the
pager-disabling assignments; the `env_vars` string from source line 61 is
computed but never prepended. -/
theorem send_command_writes_bare_command :
    SSHAgent.send_command liveSession "ls"
      = Except.ok { liveSession with child := { writes := ["ls" ++ "\n"], closed := false } }
    ∧ "ls" ++ "\n" ≠ SSHAgent.send_command_env_vars ++ "ls" ++ "\n"
    ∧ strContains ("ls" ++ "\n") "PAGER=cat" = false := by
  refine ⟨by rfl, by decide, by decide⟩

/-- **C5** (counterexample).  Claim: `close` is idempotent — a second
`close` on an already-closed session never raises.  False: on the
concrete open session `liveSession`, the first `close` succeeds (raises
nothing) but the second `close` raises `OSError`, because it writes
`"exit"` to the already-closed pexpect child. -/
theorem close_second_raises_counterexample :
    (SSHAgent.close liveSession).2 = none
    ∧ (SSHAgent.close (SSHAgent.close liveSession).1).2
        = some "OSError: [Errno 9] Bad file descriptor" := by
  refine ⟨by rfl, by rfl⟩

/-- **C5** (amended).  `close` is not idempotent: on any open session the
first `close` raises nothing, stops the reader and closes the child, but
a second `close` on the now-closed session raises an `OSError` from
writing `"exit"` to the closed channel — it is not a no-op. -/
theorem close_not_idempotent (s : SSHAgent.State)
    (h : s.child.closed = false) :
    (SSHAgent.close s).2 = none
    ∧ (SSHAgent.close s).1.keep_reading = false
    ∧ (SSHAgent.close s).1.child.closed = true
    ∧ (SSHAgent.close (SSHAgent.close s).1).2
        = some "OSError: [Errno 9] Bad file descriptor" := by
  simp [SSHAgent.close, h]

/-- Witness for the amended C5 at the concrete open session. -/
theorem close_not_idempotent_witness :
    (SSHAgent.close liveSession).2 = none
    ∧ (SSHAgent.close liveSession).1.keep_reading = false
    ∧ (SSHAgent.close liveSession).1.child.closed = true
    ∧ (SSHAgent.close (SSHAgent.close liveSession).1).2
        = some "OSError: [Errno 9] Bad file descriptor" :=
  close_not_idempotent liveSession (by rfl)

/-- **C6** (counterexample).  Claim: when the just-read chunk's
lowercased text contains a continuation word, the reader writes a single
newline back to the channel.  False: on the chunk
`"Press ENTER to continue"` the spec's trigger holds, yet the reader-loop
iteration of `SSHAgent._read_output` writes nothing back — its channel
writes are `[]`, not `["\n"]`. -/
theorem reader_auto_continue_counterexample :
    specContinuationTrigger "Press ENTER to continue" = true
    ∧ (SSHAgent.read_output_step liveSession (some "Press ENTER to continue")).2
        ≠ ["\n"] := by
  refine ⟨by decide, by decide⟩

/-- **C6** (amended).  On every iteration of the background reader loop,
the reader never writes anything back to the channel, whatever the
chunk's text: it only appends the chunk to the output buffer.  (No
auto-continue heuristic exists in `SSHAgent._read_output`.) -/
theorem reader_never_writes_back (s : SSHAgent.State) (c : String) :
    SSHAgent.read_output_step s (some c)
      = ({ s with output_buffer := s.output_buffer ++ c }, []) := rfl

/-- **C9.**  `get_output` strips ANSI escape sequences by default: for
every buffered text made of escape-free text `p`, a CSI escape sequence
(parameter bytes `params`, intermediate bytes `inters`, final byte
`fin` — e.g. a cursor movement), and escape-free visible text `q`, the
default drain returns exactly the visible text `p ++ q` with the escape
sequence removed. -/
theorem get_output_strips_ansi (s : SSHAgent.State)
    (p q params inters : List Char) (fin : Char)
    (hp : ∀ c ∈ p, c ≠ escChar) (hq : ∀ c ∈ q, c ≠ escChar)
    (h1 : ∀ c ∈ params, isCsiParamChar c = true)
    (h2 : ∀ c ∈ inters, isCsiInterChar c = true)
    (h3 : isCsiFinalChar fin = true)
    (hbuf : s.output_buffer
      = String.mk (p ++ escChar :: '[' :: (params ++ (inters ++ fin :: q)))) :
    (SSHAgent.get_output s).1 = String.mk (p ++ q) := by
  have hstrip :
      stripAnsiChars (p ++ escChar :: '[' :: (params ++ (inters ++ fin :: q)))
        = p ++ q := by
    rw [stripAnsiChars_append_of_noEsc hp, stripAnsiChars_csi h1 h2 h3,
      stripAnsiChars_of_noEsc hq]
  simp [SSHAgent.get_output, SSHAgent.strip_ansi, hbuf, hstrip]

/-- Witness for C9: buffer `"ab" ++ ESC ++ "[2Kcd"` (erase-line escape
between `ab` and `cd`) drains to `"abcd"`. -/
theorem get_output_strips_ansi_witness :
    (SSHAgent.get_output
        { liveSession with
          output_buffer :=
            String.mk (['a', 'b'] ++ escChar :: '[' :: (['2'] ++ ([] ++ 'K' :: ['c', 'd']))) }).1
      = String.mk (['a', 'b'] ++ ['c', 'd']) :=
  get_output_strips_ansi _ ['a', 'b'] ['c', 'd'] ['2'] [] 'K'
    (by decide) (by decide) (by decide) (by decide) (by decide) (by rfl)

/-- **C10.**  The `clear_buffer` parameter of `ssh_check_output` has no
effect: for every world, id and pair of flag values the call returns the
same result and world, and when the id resolves to a session the
session's output buffer is always drained to empty. -/
theorem ssh_check_output_always_clears (w : Tools.World) (id : String)
    (b1 b2 : Bool) (h : Nat) (s : SSHAgent.State)
    (hlookup : Tools.lookupConn w id = some h)
    (hget : Tools.heapGet w h = some s) :
    Tools.ssh_check_output w id b1 = Tools.ssh_check_output w id b2
    ∧ Tools.heapGet (Tools.ssh_check_output w id b1).1 h
        = some { s with output_buffer := "" } := by
  refine ⟨rfl, ?_⟩
  have hlt : h < w.heap.length := by
    have h2 := hget
    simp only [Tools.heapGet] at h2
    exact (List.getElem?_eq_some.mp h2).1
  have hw : w.heap[h]? = some s := hget
  simp only [Tools.ssh_check_output, hlookup, hw, SSHAgent.get_output,
    Tools.heapGet, Tools.heapSet]
  exact List.getElem?_set_eq_of_lt _ hlt

/-- Witness for C10 on the one-session demonstration world. -/
theorem ssh_check_output_always_clears_witness :
    Tools.ssh_check_output demoWorld "default" true
      = Tools.ssh_check_output demoWorld "default" false
    ∧ Tools.heapGet (Tools.ssh_check_output demoWorld "default" true).1 0
        = some { { liveSession with output_buffer := "hello" } with
                 output_buffer := "" } :=
  ssh_check_output_always_clears demoWorld "default" true false 0
    { liveSession with output_buffer := "hello" } (by rfl) (by rfl)

/-- **C8** (counterexample).  Claim: supplying both a password and a
private-key path fails with a `ConnectError` rather than producing a live
session.  False: on an empty registry, supplying both `"pw"` and a valid
key path makes `ssh_connect` use the key, register a live session under
the id and report success. -/
theorem both_credentials_accepted_counterexample :
    (Tools.ssh_connect { heap := [], connections := [] } "host" 22 "user"
        "pw" "/root/.ssh/id_rsa" "default"
        { promptsForPassword := false, authSucceeds := true }).2
      = "SSH connection established to host:22 as user (ID: default)"
    ∧ Tools.lookupConn
        (Tools.ssh_connect { heap := [], connections := [] } "host" 22 "user"
          "pw" "/root/.ssh/id_rsa" "default"
          { promptsForPassword := false, authSucceeds := true }).1 "default"
      = some 0 := by
  refine ⟨by rfl, by rfl⟩

/-- **C8** (amended).  On a registry without the id: supplying neither
credential always fails with a connection error and registers nothing;
supplying an invalid key path (the remote never shows a shell prompt, so
the login `expect` times out) fails the same way; but supplying both
credential forms does not fail — the key path takes precedence, and with
a valid key the session is created and registered. -/
theorem connect_credential_validation (w : Tools.World) (hostname : String)
    (port : Nat) (username id : String) (env : RemoteEnv)
    (hid : Tools.lookupConn w id = none) :
    (∃ e, Tools.ssh_connect w hostname port username "" "" id env
        = (w, "Error establishing SSH connection: " ++ e))
    ∧ (∀ pw key, key ≠ "" → env.authSucceeds = false →
        ∃ e, Tools.ssh_connect w hostname port username pw key id env
          = (w, "Error establishing SSH connection: " ++ e))
    ∧ (∀ pw key, key ≠ "" → env.authSucceeds = true →
        (Tools.ssh_connect w hostname port username pw key id env).2
          = "SSH connection established to " ++ hostname ++ ":" ++ toString port
              ++ " as " ++ username ++ " (ID: " ++ id ++ ")"
        ∧ Tools.lookupConn
            (Tools.ssh_connect w hostname port username pw key id env).1 id
          = some w.heap.length) := by
  have hconn : ∀ pw key, Tools.ssh_connect w hostname port username pw key id env
      = Tools.ssh_connect_fresh w hostname port username pw key id env := by
    intro pw key
    simp only [Tools.ssh_connect, hid]
  refine ⟨?_, ?_, ?_⟩
  · rw [hconn]
    cases henv : env.promptsForPassword with
    | true =>
      refine ⟨"TypeError: sendline called with None", ?_⟩
      unfold Tools.ssh_connect_fresh
      simp [SSHAgent.init, Tools.toCred, henv]
    | false =>
      refine ⟨"pexpect.exceptions.TIMEOUT: password prompt not seen", ?_⟩
      unfold Tools.ssh_connect_fresh
      simp [SSHAgent.init, Tools.toCred, henv]
  · intro pw key hkey hauth
    rw [hconn]
    refine ⟨"pexpect.exceptions.TIMEOUT: shell prompt not seen", ?_⟩
    unfold Tools.ssh_connect_fresh
    simp [SSHAgent.init, Tools.toCred, hkey, hauth]
  · intro pw key hkey hauth
    rw [hconn]
    have hinit : SSHAgent.init hostname port username (Tools.toCred pw)
        (Tools.toCred key) env
        = Except.ok
            { ssh_command := "ssh " ++ username ++ "@" ++ hostname ++ " -p "
                ++ toString port ++ " -i " ++ key
              child := { writes := [], closed := false }
              output_buffer := ""
              keep_reading := true } := by
      simp [SSHAgent.init, Tools.toCred, hkey, hauth]
    unfold Tools.ssh_connect_fresh
    rw [hinit]
    refine ⟨rfl, ?_⟩
    simp [Tools.lookupConn, Tools.setConn, List.find?_cons_of_pos]

/-- Witness for the amended C8 on the empty registry. -/
theorem connect_credential_validation_witness :
    (∃ e, Tools.ssh_connect { heap := [], connections := [] } "host" 22 "user"
        "" "" "default" { promptsForPassword := true, authSucceeds := false }
        = ({ heap := [], connections := [] },
           "Error establishing SSH connection: " ++ e))
    ∧ (∀ pw key, key ≠ "" →
        RemoteEnv.authSucceeds
            { promptsForPassword := true, authSucceeds := false } = false →
        ∃ e, Tools.ssh_connect { heap := [], connections := [] } "host" 22 "user"
          pw key "default" { promptsForPassword := true, authSucceeds := false }
          = ({ heap := [], connections := [] },
             "Error establishing SSH connection: " ++ e))
    ∧ (∀ pw key, key ≠ "" →
        RemoteEnv.authSucceeds
            { promptsForPassword := true, authSucceeds := false } = true →
        (Tools.ssh_connect { heap := [], connections := [] } "host" 22 "user"
            pw key "default"
            { promptsForPassword := true, authSucceeds := false }).2
          = "SSH connection established to " ++ "host" ++ ":" ++ toString 22
              ++ " as " ++ "user" ++ " (ID: " ++ "default" ++ ")"
        ∧ Tools.lookupConn
            (Tools.ssh_connect { heap := [], connections := [] } "host" 22 "user"
              pw key "default"
              { promptsForPassword := true, authSucceeds := false }).1 "default"
          = some 0) :=
  connect_credential_validation { heap := [], connections := [] } "host" 22
    "user" "default" { promptsForPassword := true, authSucceeds := false }
    (by rfl)

/-- **C7.**  At most one live session per id: starting from a registry
without the id, a first `ssh_connect` registers session `s1`; a second
`ssh_connect` with the same id first closes `s1` (its channel ends up
closed) and removes it, then registers the new session `s2` under a fresh
handle; afterwards the id resolves to `s2`, and an `ssh_execute` on the
id writes the command only to the new session's channel, leaving the old
(closed) session untouched. -/
theorem connect_same_id_replaces (w0 : Tools.World) (hostname : String)
    (port : Nat) (username pw1 key1 pw2 key2 id : String)
    (env1 env2 : RemoteEnv) (s1 s2 : SSHAgent.State) (w1 w2 : Tools.World)
    (hid : Tools.lookupConn w0 id = none)
    (h1 : SSHAgent.init hostname port username (Tools.toCred pw1)
      (Tools.toCred key1) env1 = Except.ok s1)
    (h2 : SSHAgent.init hostname port username (Tools.toCred pw2)
      (Tools.toCred key2) env2 = Except.ok s2)
    (hw1 : w1 = (Tools.ssh_connect w0 hostname port username pw1 key1 id env1).1)
    (hw2 : w2 = (Tools.ssh_connect w1 hostname port username pw2 key2 id env2).1) :
    Tools.lookupConn w2 id = some (w0.heap.length + 1)
    ∧ Tools.heapGet w2 (w0.heap.length + 1) = some s2
    ∧ Tools.heapGet w2 w0.heap.length = some (SSHAgent.close s1).1
    ∧ (SSHAgent.close s1).1.child.closed = true
    ∧ (∀ cmd arrived,
        Tools.heapGet (Tools.ssh_execute w2 cmd id arrived).1 w0.heap.length
          = some (SSHAgent.close s1).1
        ∧ ∃ s3, Tools.heapGet (Tools.ssh_execute w2 cmd id arrived).1
              (w0.heap.length + 1) = some s3
            ∧ s3.child.writes = s2.child.writes ++ [cmd ++ "\n"]) := by
  obtain ⟨hopen1, hbuf1, hkeep1⟩ := init_ok_open h1
  obtain ⟨hopen2, hbuf2, hkeep2⟩ := init_ok_open h2
  -- the first connect appends s1 and registers it
  have e1 : (Tools.ssh_connect w0 hostname port username pw1 key1 id env1).1
      = { heap := w0.heap ++ [s1]
          connections := Tools.setConn w0.connections id w0.heap.length } := by
    simp only [Tools.ssh_connect, hid]
    unfold Tools.ssh_connect_fresh
    rw [h1]
  rw [e1] at hw1
  -- looking up the id in w1 finds the first session
  have l1 : Tools.lookupConn w1 id = some w0.heap.length := by
    rw [hw1]
    simp [Tools.lookupConn, Tools.setConn, List.find?_cons_of_pos]
  have g1 : Tools.heapGet w1 w0.heap.length = some s1 := by
    rw [hw1]
    simp only [Tools.heapGet]
    exact List.getElem?_concat_length _ _
  -- closing the first session succeeds and marks its channel closed
  have hclose : SSHAgent.close s1
      = ({ s1 with
           keep_reading := false
           child := { writes := s1.child.writes ++ ["exit\n"], closed := true } },
         none) := by
    simp [SSHAgent.close, hopen1]
  -- the second connect closes and replaces
  have e2 : (Tools.ssh_connect w1 hostname port username pw2 key2 id env2).1
      = { heap := (w0.heap ++ [(SSHAgent.close s1).1]) ++ [s2]
          connections := Tools.setConn (Tools.delConn w1.connections id) id
            (w0.heap.length + 1) } := by
    simp only [Tools.ssh_connect, l1, g1, hclose]
    unfold Tools.ssh_connect_fresh
    rw [h2]
    simp only [Tools.heapSet, hw1, hclose]
    rw [set_concat_length]
    simp [List.length_set]
  rw [e2] at hw2
  have hlen : (w0.heap ++ [(SSHAgent.close s1).1]).length = w0.heap.length + 1 := by
    simp
  refine ⟨?_, ?_, ?_, ?_, ?_⟩
  · rw [hw2]
    simp [Tools.lookupConn, Tools.setConn, List.find?_cons_of_pos]
  · rw [hw2]
    simp only [Tools.heapGet]
    rw [← hlen]
    exact List.getElem?_concat_length _ _
  · rw [hw2]
    simp only [Tools.heapGet]
    rw [List.getElem?_append_left (by omega)]
    exact List.getElem?_concat_length _ _
  · rw [hclose]
  · intro cmd arrived
    have lw2 : Tools.lookupConn w2 id = some (w0.heap.length + 1) := by
      rw [hw2]
      simp [Tools.lookupConn, Tools.setConn, List.find?_cons_of_pos]
    have gw2 : Tools.heapGet w2 (w0.heap.length + 1) = some s2 := by
      rw [hw2]
      simp only [Tools.heapGet]
      rw [← hlen]
      exact List.getElem?_concat_length _ _
    have hsend : SSHAgent.send_command s2 cmd
        = Except.ok { s2 with
            child := { writes := s2.child.writes ++ [cmd ++ "\n"]
                       closed := s2.child.closed } } := by
      simp [SSHAgent.send_command, SSHAgent.sendline, hopen2]
    have e3 : Tools.ssh_execute w2 cmd id arrived
        = (Tools.heapSet w2 (w0.heap.length + 1)
            { s2 with
              child := { writes := s2.child.writes ++ [cmd ++ "\n"]
                         closed := s2.child.closed }
              output_buffer := "" },
           SSHAgent.strip_ansi (s2.output_buffer ++ arrived)) := by
      simp only [Tools.ssh_execute, lw2, gw2, hsend, SSHAgent.read_output_step,
        SSHAgent.get_output, if_true]
    constructor
    · rw [e3]
      simp only [Tools.heapGet, Tools.heapSet]
      rw [List.getElem?_set_ne (by omega)]
      have : Tools.heapGet w2 w0.heap.length = some (SSHAgent.close s1).1 := by
        rw [hw2]
        simp only [Tools.heapGet]
        rw [List.getElem?_append_left (by omega)]
        exact List.getElem?_concat_length _ _
      simpa [Tools.heapGet] using this
    · refine ⟨{ s2 with
          child := { writes := s2.child.writes ++ [cmd ++ "\n"]
                     closed := s2.child.closed }
          output_buffer := "" }, ?_, rfl⟩
      rw [e3]
      simp only [Tools.heapGet, Tools.heapSet]
      have hlt : w0.heap.length + 1 < w2.heap.length := by
        rw [hw2]
        simp
      exact List.getElem?_set_eq_of_lt _ hlt

/-- **C2.** In an interactive run that finishes normally, a
prompt/response pair `it` supplied exactly once — whose response no other
supplied pair shares and whose log marker never arrives verbatim as a
read chunk — is answered at most once: at loop end, the number of
remaining copies of the pair plus the number of stdin writes of its
response equals one (so the response is written at most once, and exactly
once precisely when the pair has been removed from the remaining set);
the `[Sent: ...]` marker appears in the output log exactly as many times
as the response was written; and at the moment a pair is answered, the
response plus a newline is written to stdin, the marker is appended to
the log, the pair is removed, and the rolling buffer is reset to empty,
so the same prompt is never re-answered from stale buffered text. -/
theorem prompt_answered_at_most_once (timeout : Nat)
    (events : List Tools.LoopEvent) (R0 : List Tools.PromptResponse)
    (it : Tools.PromptResponse) (stF : Tools.RunState)
    (hcount : R0.count it = 1)
    (huniq : ∀ x ∈ R0, x.response = it.response → x = it)
    (hchunks : ∀ e ∈ events,
      Tools.chunkOk (Tools.sentMarker it.response) e = true)
    (hrun : Tools.interactiveLoop timeout events (Tools.initRunState R0)
      = Tools.RunOutcome.finished stF) :
    stF.remaining_responses.count it
        + stF.stdin_writes.count (Tools.sendKey it.response) = 1
    ∧ stF.all_output.count (Tools.sentMarker it.response)
        = stF.stdin_writes.count (Tools.sendKey it.response)
    ∧ stF.stdin_writes.count (Tools.sendKey it.response) ≤ 1
    ∧ (∀ (st1 st2 : Tools.RunState), st1.stdin_closed = false →
        strContains st1.process_output it.prompt = true →
        it ∈ st1.remaining_responses →
        Tools.respondLoop [it] st1 = Except.ok st2 →
        st2.stdin_writes = st1.stdin_writes ++ [Tools.sendKey it.response]
        ∧ st2.all_output = st1.all_output ++ [Tools.sentMarker it.response]
        ∧ st2.remaining_responses = st1.remaining_responses.erase it
        ∧ st2.process_output = "") := by
  obtain ⟨e1, e2⟩ := interactiveLoop_finished_count timeout it R0 huniq events
    (Tools.initRunState R0) stF hrun rfl (fun x hx => hx) hchunks
  simp only [Tools.initRunState, List.count_nil] at e1 e2
  refine ⟨by omega, by omega, by omega, ?_⟩
  intro st1 st2 h1 h2 h3 h4
  simp only [Tools.respondLoop] at h4
  rw [if_pos h2, if_neg (by simp [h1]), if_pos h3] at h4
  cases h4
  exact ⟨rfl, rfl, rfl, rfl⟩

/-- Witness for C2 on the demonstration run: the prompt `"Password:"`
arrives split across two chunks, is answered once, and its verbatim
reappearance later in the run is not re-answered. -/
theorem prompt_answered_at_most_once_witness :
    c2final.remaining_responses.count c2pair
        + c2final.stdin_writes.count (Tools.sendKey c2pair.response) = 1
    ∧ c2final.all_output.count (Tools.sentMarker c2pair.response)
        = c2final.stdin_writes.count (Tools.sendKey c2pair.response)
    ∧ c2final.stdin_writes.count (Tools.sendKey c2pair.response) ≤ 1
    ∧ (∀ (st1 st2 : Tools.RunState), st1.stdin_closed = false →
        strContains st1.process_output c2pair.prompt = true →
        c2pair ∈ st1.remaining_responses →
        Tools.respondLoop [c2pair] st1 = Except.ok st2 →
        st2.stdin_writes = st1.stdin_writes ++ [Tools.sendKey c2pair.response]
        ∧ st2.all_output = st1.all_output ++ [Tools.sentMarker c2pair.response]
        ∧ st2.remaining_responses = st1.remaining_responses.erase c2pair
        ∧ st2.process_output = "") :=
  prompt_answered_at_most_once 30 c2events [c2pair] c2pair c2final
    (by decide) (by decide) (by decide) (by rfl)

/-- **C3** (counterexample).  Claim: when the deadline elapses with the
process still alive, the runner returns the Timeout error together with
all output captured up to that point.  False: after capturing the chunk
`"partial output"`, the deadline path returns only the bare message
`"Interactive command timed out after 30 seconds"`, which does not
contain the captured text. -/
theorem timeout_discards_output_counterexample :
    Tools.interactiveLoop 30
        [Tools.LoopEvent.chunk "partial output",
         Tools.LoopEvent.deadlineExceeded]
        (Tools.initRunState [])
      = Tools.RunOutcome.timedOut true
          "Interactive command timed out after 30 seconds"
    ∧ strContains "Interactive command timed out after 30 seconds"
        "partial output" = false := by
  refine ⟨by rfl, by decide⟩

/-- **C3** (amended).  For every interactive run whose process is still
alive when the deadline elapses (each earlier iteration read a chunk or
swallowed a read timeout), the runner forcibly kills the process
(`killed = true`) and returns only the bare timeout message — the output
captured so far is discarded rather than returned. -/
theorem timeout_kills_and_returns_bare_message (timeout : Nat)
    (pre rest : List Tools.LoopEvent) (R0 : List Tools.PromptResponse)
    (hpre : ∀ e ∈ pre, Tools.keepsLooping e = true) :
    Tools.interactiveLoop timeout
        (pre ++ Tools.LoopEvent.deadlineExceeded :: rest)
        (Tools.initRunState R0)
      = Tools.RunOutcome.timedOut true (Tools.timeoutMsg timeout) :=
  interactiveLoop_deadline_bare timeout pre rest (Tools.initRunState R0)
    rfl hpre

/-- Witness for the amended C3: one captured chunk, then the deadline. -/
theorem timeout_kills_and_returns_bare_message_witness :
    Tools.interactiveLoop 30
        ([Tools.LoopEvent.chunk "hello"]
          ++ Tools.LoopEvent.deadlineExceeded :: [])
        (Tools.initRunState [])
      = Tools.RunOutcome.timedOut true (Tools.timeoutMsg 30) :=
  timeout_kills_and_returns_bare_message 30 [Tools.LoopEvent.chunk "hello"]
    [] [] (by decide)

/-- Witness for C7 on the concrete two-connect demonstration. -/
theorem connect_same_id_replaces_witness :
    Tools.lookupConn c7w2 "id1" = some (c7w0.heap.length + 1)
    ∧ Tools.heapGet c7w2 (c7w0.heap.length + 1) = some c7s2
    ∧ Tools.heapGet c7w2 c7w0.heap.length = some (SSHAgent.close c7s1).1
    ∧ (SSHAgent.close c7s1).1.child.closed = true
    ∧ (∀ cmd arrived,
        Tools.heapGet (Tools.ssh_execute c7w2 cmd "id1" arrived).1
            c7w0.heap.length
          = some (SSHAgent.close c7s1).1
        ∧ ∃ s3, Tools.heapGet (Tools.ssh_execute c7w2 cmd "id1" arrived).1
              (c7w0.heap.length + 1) = some s3
            ∧ s3.child.writes = c7s2.child.writes ++ [cmd ++ "\n"]) :=
  connect_same_id_replaces c7w0 "host" 22 "user" "" "/k1" "" "/k2" "id1"
    c7env c7env c7s1 c7s2 c7w1 c7w2 (by rfl) (by rfl) (by rfl) (by rfl) (by rfl)

end DevOpsAgent

